import Mathlib

/-!
Shallow embedding of the core of `cfn-modules/test` (`src/index.js`): the
retry engine (`retry`, lines 95-109), the HTTP probe adapters
(`probeHttpGet` / `probeHttpPost`, lines 127-151), the bounded stack waiter
(`awaitStack`, lines 218-239) and the stack-output lookup
(`getStackOutputs`, lines 241-252).

Effects are made explicit: the interpreter for `retry` returns, besides the
outcome, the trace of observable events (invocations of the operation and
invocations of the sleeper) and the internal list of attempt records that
the JS `errors` array accumulates.  External collaborators (the operation
being retried, the HTTP transport, the AWS waiters, `Date`) are parameters:
an operation is a function from its invocation index to an `Except` result,
timestamps are abstract ISO strings indexed by the failure number, and
`serialize` stands for `JSON.stringify(serializeError(-))`.
-/

set_option autoImplicit false

namespace CfnTest

universe u v

/-- Observable events of one retry session: the i-th invocation (0-based) of
the operation, and one invocation of the sleeper with its duration in
milliseconds. -/
inductive Event where
  | invoke (i : Nat)
  | sleep (ms : Nat)
deriving DecidableEq, Repr

/-- One entry of the JS `errors` array: `{date: new Date(), err}`; the date
is kept as the ISO-8601 string that `toISOString()` later prints. -/
structure AttemptRecord (Err : Type u) where
  date : String
  err : Err
deriving DecidableEq, Repr

/-- One line of the aggregated failure message:
`try[${i+1} | ${date.toISOString()}]: ${JSON.stringify(serializeError(err))}`. -/
def formatTry {Err : Type u} (serialize : Err → String) (i : Nat)
    (r : AttemptRecord Err) : String :=
  "try[" ++ toString (i + 1) ++ " | " ++ r.date ++ "]: " ++ serialize r.err

/-- `errors.map((error, i) => ...)` with its running index, starting at `i`. -/
def formatLines {Err : Type u} (serialize : Err → String) :
    Nat → List (AttemptRecord Err) → List String
  | _, [] => []
  | i, r :: rs => formatTry serialize i r :: formatLines serialize (i + 1) rs

/-- The message of the exhaustion error thrown at line 108:
`retry failed: ${errors.map(...).join('\n')}`. -/
def retryMessage {Err : Type u} (serialize : Err → String)
    (errors : List (AttemptRecord Err)) : String :=
  "retry failed: " ++ String.intercalate "\n" (formatLines serialize 0 errors)

/-- The `while (errors.length < tries)` loop of `retry`.  `fn i` is the
outcome of the operation's i-th invocation, `dates i` the ISO timestamp
recorded at the i-th failure.  Each failing iteration appends one record and
sleeps; the first success returns.  The fuel equals `tries - errors.length`,
which is exactly the number of iterations the guard still allows, since each
iteration that does not return grows `errors` by one. -/
def retryLoop {Err : Type u} {α : Type v} (fn : Nat → Except Err α)
    (dates : Nat → String) (delay : Nat)
    (errors : List (AttemptRecord Err)) :
    Nat → List Event × List (AttemptRecord Err) × Option α
  | 0 => ([], errors, none)
  | fuel + 1 =>
    match fn errors.length with
    | Except.ok a => ([Event.invoke errors.length], errors, some a)
    | Except.error e =>
      (Event.invoke errors.length :: Event.sleep delay ::
        (retryLoop fn dates delay (errors ++ [⟨dates errors.length, e⟩]) fuel).1,
       (retryLoop fn dates delay (errors ++ [⟨dates errors.length, e⟩]) fuel).2)

/-- `retry(fn, tries = 30, delay = 10000)` (lines 95-109).  Returns the
event trace, the final content of the internal `errors` array, and the
outcome: the first successful result, or the aggregated exhaustion error
message.  `tries` is an `Int` because the JS guard `errors.length < tries`
also accepts non-positive counts. -/
def retry {Err : Type u} {α : Type v} (fn : Nat → Except Err α)
    (dates : Nat → String) (serialize : Err → String)
    (tries : Int := 30) (delay : Nat := 10000) :
    List Event × List (AttemptRecord Err) × Except String α :=
  let run := retryLoop fn dates delay [] tries.toNat
  match run.2.2 with
  | some a => (run.1, run.2.1, Except.ok a)
  | none => (run.1, run.2.1, Except.error (retryMessage serialize run.2.1))

/-- An axios rejection value: `responseStatus` is `err.response.status` when
a response object with a status is present (`none` models a missing
`response` or a missing `status` field), `base` is the underlying
transport-level error value. -/
structure AxiosError (ε : Type u) where
  responseStatus : Option Nat
  base : ε
deriving DecidableEq, Repr

/-- An error as seen by `retry` from an HTTP probe attempt: either a fresh
`new Error(message)` built by the probe, or the original axios error
re-signalled as-is. -/
inductive JsError (ε : Type u) where
  | errorMsg (message : String)
  | original (e : AxiosError ε)
deriving DecidableEq, Repr

/-- The attempt function of `probeHttpGet`/`probeHttpPost` (lines 128-137,
141-150): `request i` is the outcome of the i-th HTTP request.  In the JS
catch handler, `err.response && err.response.status` is truthy exactly when
a response status is present and non-zero; then the error is replaced by
`new Error('saw http status code ' + status)`, otherwise the axios error is
re-signalled unchanged. -/
def httpAttempt {β : Type v} {ε : Type u} (request : Nat → Except (AxiosError ε) β)
    (i : Nat) : Except (JsError ε) β :=
  match request i with
  | Except.ok r => Except.ok r
  | Except.error err =>
    match err.responseStatus with
    | some status =>
      if status ≠ 0 then
        Except.error (JsError.errorMsg ("saw http status code " ++ toString status))
      else
        Except.error (JsError.original err)
    | none => Except.error (JsError.original err)

/-- `probeHttpGet(url)` (lines 127-138): wraps the HTTP attempt in `retry`
with the default try/delay budget.  The URL is absorbed into `request`. -/
def probeHttpGet {β : Type v} {ε : Type u} (request : Nat → Except (AxiosError ε) β)
    (dates : Nat → String) (serialize : JsError ε → String) :
    List Event × List (AttemptRecord (JsError ε)) × Except String β :=
  retry (httpAttempt request) dates serialize

/-- `probeHttpPost(url)` (lines 140-151): identical to `probeHttpGet` except
for the HTTP method carried by `request`. -/
def probeHttpPost {β : Type v} {ε : Type u} (request : Nat → Except (AxiosError ε) β)
    (dates : Nat → String) (serialize : JsError ε → String) :
    List Event × List (AttemptRecord (JsError ε)) × Except String β :=
  retry (httpAttempt request) dates serialize

/-- Parameters handed to one `cloudformation.waitFor` call: the stack name,
the `$waiter.delay` (seconds) and `$waiter.maxAttempts`. -/
structure WaiterParams where
  stackName : String
  delay : Nat
  maxAttempts : Nat
deriving DecidableEq, Repr

/-- One `waitFor` invocation made by `awaitStack`, tagged by its state name. -/
inductive WaitCall where
  | stackExists (p : WaiterParams)
  | stackCreateComplete (p : WaiterParams)
deriving DecidableEq, Repr

/-- Ceiling division on `Nat`: `Math.ceil(a / b)` for non-negative exact
operands (all the divisions `awaitStack` feeds to `Math.ceil` are exact in
IEEE doubles at these magnitudes, so the float computation agrees with the
rational one). -/
def ceilDiv (a b : Nat) : Nat := (a + b - 1) / b

/-- `Math.round(x)` on an exact rational `num / den` (`den > 0`):
JS rounds half towards positive infinity, i.e. `floor(x + 1/2)`. -/
def jsRoundDiv (num : Int) (den : Int) : Int := Int.fdiv (2 * num + den) (2 * den)

/-- `const WAIT_IN_SECONDS = 45` of `awaitStack` (line 219). -/
def WAIT_IN_SECONDS : Nat := 45

/-- `const MAX_WAIT_TIME_IN_MILLIS = 45 * 60 * 1000` (line 220). -/
def MAX_WAIT_TIME_IN_MILLIS : Nat := 45 * 60 * 1000

/-- `maxWaitTimeInSeconds` (line 231):
`Math.max(WAIT_IN_SECONDS, Math.round((MAX_WAIT_TIME_IN_MILLIS - waitForStackDurationInMillis) / 1000))`. -/
def maxWaitTimeInSeconds (waitForStackDurationInMillis : Nat) : Nat :=
  (max (WAIT_IN_SECONDS : Int)
    (jsRoundDiv ((MAX_WAIT_TIME_IN_MILLIS : Int) - (waitForStackDurationInMillis : Int)) 1000)).toNat

/-- `awaitStack(stackName)` (lines 218-239).  The two `waitFor`
collaborators are parameters mapping the passed waiter parameters to their
outcome; `existsDurationMillis` is the wall-clock time
`Date.now() - waitForStackExistsStarted` consumed by the first wait.
Returns the list of `waitFor` calls actually made (in order) and the
outcome: the first rejection, or the final template string of line 238,
which names `stackCreateComplete` in both of its lines. -/
def awaitStack {ε : Type u} (stackName : String)
    (existsWait : WaiterParams → Except ε Unit)
    (existsDurationMillis : Nat)
    (readyWait : WaiterParams → Except ε Unit) :
    List WaitCall × Except ε String :=
  match existsWait ⟨stackName, WAIT_IN_SECONDS,
      ceilDiv (MAX_WAIT_TIME_IN_MILLIS / 1000) WAIT_IN_SECONDS⟩ with
  | Except.error e =>
    ([WaitCall.stackExists ⟨stackName, WAIT_IN_SECONDS,
        ceilDiv (MAX_WAIT_TIME_IN_MILLIS / 1000) WAIT_IN_SECONDS⟩], Except.error e)
  | Except.ok _ =>
    match readyWait ⟨stackName, WAIT_IN_SECONDS,
        ceilDiv (maxWaitTimeInSeconds existsDurationMillis) WAIT_IN_SECONDS⟩ with
    | Except.error e =>
      ([WaitCall.stackExists ⟨stackName, WAIT_IN_SECONDS,
          ceilDiv (MAX_WAIT_TIME_IN_MILLIS / 1000) WAIT_IN_SECONDS⟩,
        WaitCall.stackCreateComplete ⟨stackName, WAIT_IN_SECONDS,
          ceilDiv (maxWaitTimeInSeconds existsDurationMillis) WAIT_IN_SECONDS⟩],
        Except.error e)
    | Except.ok _ =>
      ([WaitCall.stackExists ⟨stackName, WAIT_IN_SECONDS,
          ceilDiv (MAX_WAIT_TIME_IN_MILLIS / 1000) WAIT_IN_SECONDS⟩,
        WaitCall.stackCreateComplete ⟨stackName, WAIT_IN_SECONDS,
          ceilDiv (maxWaitTimeInSeconds existsDurationMillis) WAIT_IN_SECONDS⟩],
        Except.ok ("AWS.CloudFormation().waitFor(stackCreateComplete, " ++ stackName ++ ")\n"
          ++ "AWS.CloudFormation().waitFor(stackCreateComplete, " ++ stackName ++ ")\n"))

/-- One entry of `Stacks[0].Outputs`. -/
structure StackOutput where
  OutputKey : String
  OutputValue : String
deriving DecidableEq, Repr

/-- One entry of `data.Stacks`. -/
structure Stack where
  Outputs : List StackOutput
deriving DecidableEq, Repr

/-- The JS object built by
`Outputs.reduce((outputs, output) => { outputs[output.OutputKey] = output.OutputValue; return outputs; }, {})`:
a string-keyed map where each assignment overwrites the previous binding. -/
def outputsObject (outputs : List StackOutput) : String → Option String :=
  outputs.foldl
    (fun m o => fun k => if k = o.OutputKey then some o.OutputValue else m k)
    (fun _ => none)

/-- `getStackOutputs(stackName)` (lines 241-252), given the `data.Stacks`
array the `describeStacks` collaborator returned: with exactly one stack it
returns the outputs object, otherwise it throws
`expected one stack, saw ${data.Stacks.length}`. -/
def getStackOutputs (stackList : List Stack) : Except String (String → Option String) :=
  match stackList with
  | [s] => Except.ok (outputsObject s.Outputs)
  | _ => Except.error ("expected one stack, saw " ++ toString stackList.length)

/-- Number of operation invocations recorded in a trace. -/
def countInvokes (tr : List Event) : Nat :=
  (tr.filter fun e => match e with | Event.invoke _ => true | _ => false).length

/-- Number of sleeper invocations recorded in a trace. -/
def countSleeps (tr : List Event) : Nat :=
  (tr.filter fun e => match e with | Event.sleep _ => true | _ => false).length

/-- Does `l` start with `p`? -/
def startsWithChars : List Char → List Char → Bool
  | _, [] => true
  | [], _ :: _ => false
  | a :: as, b :: bs => a == b && startsWithChars as bs

/-- Does `l` contain `p` as a contiguous run? -/
def containsChars : List Char → List Char → Bool
  | [], p => p.isEmpty
  | a :: as, p => startsWithChars (a :: as) p || containsChars as p

/-- The parameters of the `stackCreateComplete` waits in a call list. -/
def readyCalls (calls : List WaitCall) : List WaiterParams :=
  calls.filterMap fun c =>
    match c with
    | WaitCall.stackCreateComplete p => some p
    | _ => none

/-- The parameters of the `stackExists` waits in a call list. -/
def existsCalls (calls : List WaitCall) : List WaiterParams :=
  calls.filterMap fun c =>
    match c with
    | WaitCall.stackExists p => some p
    | _ => none

/-- The attempt cap the claim states for the ready phase: the exact ceiling
of remaining-budget / 45 s, both in milliseconds, where remaining-budget is
45 minutes minus the wall-clock time consumed by the existence phase. -/
def claimedReadyCap (existsDurationMillis : Nat) : Nat :=
  ceilDiv (45 * 60 * 1000 - existsDurationMillis) (45 * 1000)

/-- The HTTP transport of scenario E: the first request is rejected with a
503 response, every later one resolves with `r`. -/
def scenario503then200 {β : Type v} {ε : Type u} (r : β) (e : ε) :
    Nat → Except (AxiosError ε) β :=
  fun i => if i = 0 then Except.error ⟨some 503, e⟩ else Except.ok r

/-! ### Facts about the retry loop -/

theorem formatLines_map_range' {Err : Type u} (serialize : Err → String)
    (mk : Nat → AttemptRecord Err) :
    ∀ (n i : Nat),
      formatLines serialize i ((List.range' i n).map mk)
        = (List.range' i n).map (fun j => formatTry serialize j (mk j))
  | 0, _ => rfl
  | n + 1, i => by
    rw [List.range'_succ]
    simp only [List.map_cons, formatLines]
    rw [formatLines_map_range' serialize mk n (i + 1)]

theorem retryLoop_all_fail {Err : Type u} {α : Type v} (fn : Nat → Except Err α)
    (E : Nat → Err) (dates : Nat → String) (delay : Nat)
    (hfail : ∀ i, fn i = Except.error (E i)) :
    ∀ (fuel : Nat) (errors : List (AttemptRecord Err)),
      retryLoop fn dates delay errors fuel =
        ((List.range' errors.length fuel).flatMap
            (fun i => [Event.invoke i, Event.sleep delay]),
          errors ++ (List.range' errors.length fuel).map (fun i => ⟨dates i, E i⟩),
          none)
  | 0, errors => by simp [retryLoop]
  | fuel + 1, errors => by
    have ih := retryLoop_all_fail fn E dates delay hfail fuel
      (errors ++ [⟨dates errors.length, E errors.length⟩])
    simp only [retryLoop, hfail errors.length]
    rw [ih]
    simp [List.range'_succ, List.flatMap_cons, List.append_assoc]

theorem retryLoop_succeeds {Err : Type u} {α : Type v} (fn : Nat → Except Err α)
    (dates : Nat → String) (delay : Nat) (a : α) :
    ∀ (m fuel : Nat) (errors : List (AttemptRecord Err)),
      (∀ j, j < m → ∃ e, fn (errors.length + j) = Except.error e) →
      fn (errors.length + m) = Except.ok a →
      m < fuel →
      (retryLoop fn dates delay errors fuel).1
          = (List.range' errors.length m).flatMap
              (fun i => [Event.invoke i, Event.sleep delay])
            ++ [Event.invoke (errors.length + m)]
        ∧ (retryLoop fn dates delay errors fuel).2.2 = some a := by
  intro m
  induction m with
  | zero =>
    intro fuel errors _ hok hm
    obtain ⟨f, rfl⟩ : ∃ f, fuel = f + 1 := ⟨fuel - 1, by omega⟩
    simp only [Nat.add_zero] at hok
    simp [retryLoop, hok]
  | succ m ih =>
    intro fuel errors hfail hok hm
    obtain ⟨f, rfl⟩ : ∃ f, fuel = f + 1 := ⟨fuel - 1, by omega⟩
    obtain ⟨e, he⟩ := hfail 0 (Nat.succ_pos m)
    simp only [Nat.add_zero] at he
    have hlen : (errors ++ [(⟨dates errors.length, e⟩ : AttemptRecord Err)]).length
        = errors.length + 1 := by simp
    have ih2 := ih f (errors ++ [⟨dates errors.length, e⟩])
      (fun j hj => by
        rw [hlen, Nat.add_assoc, Nat.add_comm 1 j]
        exact hfail (j + 1) (by omega))
      (by rw [hlen]; rw [Nat.add_assoc, Nat.add_comm 1 m]; exact hok)
      (by omega)
    rw [hlen] at ih2
    simp only [retryLoop, he]
    rw [List.range'_succ]
    simp only [List.flatMap_cons, List.cons_append, List.append_assoc]
    refine ⟨?_, ih2.2⟩
    simp only [ih2.1, List.cons_append, List.nil_append]
    rw [Nat.add_assoc, Nat.add_comm 1 m]

theorem retryLoop_records {Err : Type u} {α : Type v} (fn : Nat → Except Err α)
    (dates : Nat → String) (delay : Nat) :
    ∀ (fuel : Nat) (errors : List (AttemptRecord Err)),
      (∀ j, j < errors.length →
        ∃ e, fn j = Except.error e ∧ errors[j]? = some ⟨dates j, e⟩) →
      ∀ j, j < (retryLoop fn dates delay errors fuel).2.1.length →
        ∃ e, fn j = Except.error e ∧
          (retryLoop fn dates delay errors fuel).2.1[j]? = some ⟨dates j, e⟩
  | 0, errors => fun inv => by simpa [retryLoop] using inv
  | fuel + 1, errors => fun inv => by
    cases hfn : fn errors.length with
    | ok a => simpa [retryLoop, hfn] using inv
    | error e =>
      have inv2 : ∀ j, j < (errors ++ [(⟨dates errors.length, e⟩ : AttemptRecord Err)]).length →
          ∃ e2, fn j = Except.error e2 ∧
            (errors ++ [(⟨dates errors.length, e⟩ : AttemptRecord Err)])[j]? = some ⟨dates j, e2⟩ := by
        intro j hj
        rw [List.length_append, List.length_singleton] at hj
        rcases Nat.lt_or_ge j errors.length with hlt | hge
        · obtain ⟨e2, h1, h2⟩ := inv j hlt
          exact ⟨e2, h1, by rw [List.getElem?_append_left hlt]; exact h2⟩
        · have hj2 : j = errors.length := by omega
          subst hj2
          exact ⟨e, hfn, by rw [List.getElem?_concat_length]⟩
      have := retryLoop_records fn dates delay fuel
        (errors ++ [⟨dates errors.length, e⟩]) inv2
      simpa [retryLoop, hfn] using this

theorem countInvokes_append (t1 t2 : List Event) :
    countInvokes (t1 ++ t2) = countInvokes t1 + countInvokes t2 := by
  simp [countInvokes, List.filter_append]

theorem countInvokes_blocks (delay : Nat) :
    ∀ (l : List Nat),
      countInvokes (l.flatMap (fun i => [Event.invoke i, Event.sleep delay])) = l.length
  | [] => rfl
  | i :: l => by
    simp only [List.flatMap_cons, countInvokes_append, countInvokes_blocks delay l]
    show 1 + l.length = (i :: l).length
    simp [Nat.add_comm]

theorem countSleeps_blocks (delay : Nat) :
    ∀ (l : List Nat),
      countSleeps (l.flatMap (fun i => [Event.invoke i, Event.sleep delay])) = l.length
  | [] => rfl
  | i :: l => by
    have : countSleeps ([Event.invoke i, Event.sleep delay]
        ++ l.flatMap (fun i => [Event.invoke i, Event.sleep delay]))
        = countSleeps [Event.invoke i, Event.sleep delay]
          + countSleeps (l.flatMap (fun i => [Event.invoke i, Event.sleep delay])) := by
      simp only [countSleeps, List.filter_append, List.length_append]
    simp only [List.flatMap_cons, this, countSleeps_blocks delay l]
    show 1 + l.length = (i :: l).length
    simp [Nat.add_comm]

theorem getLast_blocks (delay : Nat) :
    ∀ (l : List Nat), l ≠ [] →
      (l.flatMap (fun i => [Event.invoke i, Event.sleep delay])).getLast?
        = some (Event.sleep delay)
  | [], h => absurd rfl h
  | [i], _ => rfl
  | i :: j :: l, _ => by
    rw [List.flatMap_cons]
    rw [List.getLast?_append_of_ne_nil]
    · exact getLast_blocks delay (j :: l) (by simp)
    · simp [List.flatMap_cons]

theorem retry_eq_ok {Err : Type u} {α : Type v} (fn : Nat → Except Err α)
    (dates : Nat → String) (serialize : Err → String) (tries : Int) (delay : Nat)
    (a : α) (h : (retryLoop fn dates delay [] tries.toNat).2.2 = some a) :
    retry fn dates serialize tries delay
      = ((retryLoop fn dates delay [] tries.toNat).1,
         (retryLoop fn dates delay [] tries.toNat).2.1,
         Except.ok a) := by
  simp [retry, h]

theorem retry_eq_err {Err : Type u} {α : Type v} (fn : Nat → Except Err α)
    (dates : Nat → String) (serialize : Err → String) (tries : Int) (delay : Nat)
    (h : (retryLoop fn dates delay [] tries.toNat).2.2 = none) :
    retry fn dates serialize tries delay
      = ((retryLoop fn dates delay [] tries.toNat).1,
         (retryLoop fn dates delay [] tries.toNat).2.1,
         Except.error (retryMessage serialize (retryLoop fn dates delay [] tries.toNat).2.1)) := by
  simp [retry, h]

theorem retry_all_fail_eq {Err : Type u} {α : Type v}
    (N : Nat) (fn : Nat → Except Err α) (E : Nat → Err)
    (dates : Nat → String) (serialize : Err → String) (delay : Nat)
    (hfail : ∀ i, fn i = Except.error (E i)) :
    retry fn dates serialize (N : Int) delay
      = ((List.range N).flatMap (fun i => [Event.invoke i, Event.sleep delay]),
         (List.range N).map (fun i => ⟨dates i, E i⟩),
         Except.error (retryMessage serialize
           ((List.range N).map (fun i => ⟨dates i, E i⟩)))) := by
  have hloop := retryLoop_all_fail fn E dates delay hfail N ([])
  simp only [List.length_nil, List.nil_append] at hloop
  rw [← List.range_eq_range'] at hloop
  have htries : ((N : Int)).toNat = N := Int.toNat_ofNat N
  rw [retry_eq_err fn dates serialize (N : Int) delay (by rw [htries, hloop])]
  rw [htries, hloop]

/-! ### Claim theorems: the retry engine -/

/-- **C1.** For every `maxTries = N ≥ 1` and every operation that fails on
all invocations, `retry` invokes the operation exactly `N` times,
accumulates exactly `N` attempt records, and fails with the aggregated
`retry failed:` error whose message is the newline-join, over all `N`
attempts, of lines embedding the attempt's 1-based index, its ISO-8601
timestamp and the serialized captured error. -/
theorem retry_exhausts_all_attempts {Err : Type u} {α : Type v}
    (N : Nat) (hN : 1 ≤ N) (fn : Nat → Except Err α) (E : Nat → Err)
    (dates : Nat → String) (serialize : Err → String) (delay : Nat)
    (hfail : ∀ i, fn i = Except.error (E i)) :
    countInvokes (retry fn dates serialize (N : Int) delay).1 = N
    ∧ (retry fn dates serialize (N : Int) delay).2.1.length = N
    ∧ (retry fn dates serialize (N : Int) delay).2.2
        = Except.error ("retry failed: " ++ String.intercalate "\n"
            ((List.range N).map (fun i =>
              "try[" ++ toString (i + 1) ++ " | " ++ dates i ++ "]: " ++ serialize (E i)))) := by
  rw [retry_all_fail_eq N fn E dates serialize delay hfail]
  refine ⟨?_, by simp, ?_⟩
  · rw [countInvokes_blocks]
    exact List.length_range N
  · simp only [retryMessage]
    rw [List.range_eq_range']
    rw [formatLines_map_range' serialize (fun i => ⟨dates i, E i⟩) N 0]
    rfl

/-- Witness for C1 at `N = 2`. -/
theorem retry_exhausts_all_attempts_witness :
    countInvokes (retry (fun i => (Except.error (toString i) : Except String Nat))
        (fun i => "T" ++ toString i) (fun e => e) (2 : Int) 7).1 = 2
    ∧ (retry (fun i => (Except.error (toString i) : Except String Nat))
        (fun i => "T" ++ toString i) (fun e => e) (2 : Int) 7).2.1.length = 2
    ∧ (retry (fun i => (Except.error (toString i) : Except String Nat))
        (fun i => "T" ++ toString i) (fun e => e) (2 : Int) 7).2.2
        = Except.error ("retry failed: " ++ String.intercalate "\n"
            ((List.range 2).map (fun i =>
              "try[" ++ toString (i + 1) ++ " | " ++ ("T" ++ toString i) ++ "]: " ++ toString i))) :=
  retry_exhausts_all_attempts 2 (by decide)
    (fun i => Except.error (toString i)) (fun i => toString i)
    (fun i => "T" ++ toString i) (fun e => e) 7 (fun _ => rfl)

/-- **C2.** For every `maxTries = N ≥ 1` and every operation that fails on
its first `k - 1` invocations and succeeds on invocation `k ≤ N`, `retry`
invokes the operation exactly `k` times, returns the k-th invocation's
result, and the prior attempt records are not surfaced: the outcome is
exactly `Except.ok a`. -/
theorem retry_returns_kth_success {Err : Type u} {α : Type v}
    (N k : Nat) (hk : 1 ≤ k) (hkN : k ≤ N)
    (fn : Nat → Except Err α) (a : α)
    (dates : Nat → String) (serialize : Err → String) (delay : Nat)
    (hfail : ∀ j, j + 1 < k → ∃ e, fn j = Except.error e)
    (hok : fn (k - 1) = Except.ok a) :
    countInvokes (retry fn dates serialize (N : Int) delay).1 = k
    ∧ (retry fn dates serialize (N : Int) delay).2.2 = Except.ok a
    ∧ (retry fn dates serialize (N : Int) delay).1
        = (List.range (k - 1)).flatMap (fun i => [Event.invoke i, Event.sleep delay])
          ++ [Event.invoke (k - 1)] := by
  have hsucc := retryLoop_succeeds fn dates delay a (k - 1) N []
    (fun j hj => by
      simpa using hfail j (by omega))
    (by simpa using hok)
    (by omega)
  have htries : ((N : Int)).toNat = N := Int.toNat_ofNat N
  have hret := retry_eq_ok fn dates serialize (N : Int) delay a (by rw [htries]; exact hsucc.2)
  have htr : (retryLoop fn dates delay [] N).1
      = (List.range (k - 1)).flatMap (fun i => [Event.invoke i, Event.sleep delay])
        ++ [Event.invoke (k - 1)] := by
    have := hsucc.1
    simpa [List.range_eq_range'] using this
  refine ⟨?_, ?_, ?_⟩
  · rw [hret, htries, htr, countInvokes_append, countInvokes_blocks]
    have : countInvokes [Event.invoke (k - 1)] = 1 := rfl
    rw [this, List.length_range]
    omega
  · rw [hret]
  · rw [hret, htries, htr]

/-- Witness for C2 at `N = 3`, `k = 2`. -/
theorem retry_returns_kth_success_witness :
    countInvokes (retry (fun i => if i < 1 then Except.error "boom" else Except.ok 42)
        (fun i => "T" ++ toString i) (fun e => e) (3 : Int) 7).1 = 2
    ∧ (retry (fun i => if i < 1 then Except.error "boom" else Except.ok 42)
        (fun i => "T" ++ toString i) (fun e => e) (3 : Int) 7).2.2 = Except.ok 42
    ∧ (retry (fun i => if i < 1 then Except.error "boom" else Except.ok 42)
        (fun i => "T" ++ toString i) (fun e => e) (3 : Int) 7).1
        = (List.range 1).flatMap (fun i => [Event.invoke i, Event.sleep 7])
          ++ [Event.invoke 1] :=
  retry_returns_kth_success 3 2 (by decide) (by decide)
    (fun i => if i < 1 then Except.error "boom" else Except.ok 42) 42
    (fun i => "T" ++ toString i) (fun e => e) 7
    (fun j hj => ⟨"boom", by
      have : j = 0 := by omega
      subst this
      rfl⟩)
    rfl

/-- **C5.** For every operation that fails on all `N` invocations with
`maxTries = N ≥ 1`, the sleeper is invoked exactly `N` times; the trace is
the interleaving attempt, sleep, attempt, sleep, ..., so the N-th sleep
comes after the last failed attempt, and the last event of the whole run is
that sleep — the exhaustion error is raised only after it. -/
theorem retry_sleeps_after_last_failure {Err : Type u} {α : Type v}
    (N : Nat) (hN : 1 ≤ N) (fn : Nat → Except Err α) (E : Nat → Err)
    (dates : Nat → String) (serialize : Err → String) (delay : Nat)
    (hfail : ∀ i, fn i = Except.error (E i)) :
    countSleeps (retry fn dates serialize (N : Int) delay).1 = N
    ∧ (retry fn dates serialize (N : Int) delay).1
        = (List.range N).flatMap (fun i => [Event.invoke i, Event.sleep delay])
    ∧ (retry fn dates serialize (N : Int) delay).1.getLast? = some (Event.sleep delay)
    ∧ ∃ msg, (retry fn dates serialize (N : Int) delay).2.2 = Except.error msg := by
  rw [retry_all_fail_eq N fn E dates serialize delay hfail]
  refine ⟨?_, rfl, ?_, ⟨_, rfl⟩⟩
  · rw [countSleeps_blocks]
    exact List.length_range N
  · exact getLast_blocks delay (List.range N)
      (by
        intro hnil
        rw [List.range_eq_nil] at hnil
        omega)

/-- Witness for C5 at `N = 2`. -/
theorem retry_sleeps_after_last_failure_witness :
    countSleeps (retry (fun _ => (Except.error "boom" : Except String Nat))
        (fun i => "T" ++ toString i) (fun e => e) (2 : Int) 7).1 = 2
    ∧ (retry (fun _ => (Except.error "boom" : Except String Nat))
        (fun i => "T" ++ toString i) (fun e => e) (2 : Int) 7).1
        = (List.range 2).flatMap (fun i => [Event.invoke i, Event.sleep 7])
    ∧ (retry (fun _ => (Except.error "boom" : Except String Nat))
        (fun i => "T" ++ toString i) (fun e => e) (2 : Int) 7).1.getLast?
        = some (Event.sleep 7)
    ∧ ∃ msg, (retry (fun _ => (Except.error "boom" : Except String Nat))
        (fun i => "T" ++ toString i) (fun e => e) (2 : Int) 7).2.2 = Except.error msg :=
  retry_sleeps_after_last_failure 2 (by decide)
    (fun _ => Except.error "boom") (fun _ => "boom")
    (fun i => "T" ++ toString i) (fun e => e) 7 (fun _ => rfl)

/-- **C6.** For every operation, per-attempt errors are captured inside the
retry engine, never rethrown: every attempt record `j` holds exactly the
error of the operation's j-th invocation together with its timestamp, and
the only failure `retry` ever raises is the aggregated exhaustion message
over its recorded attempts. -/
theorem retry_failures_captured {Err : Type u} {α : Type v}
    (fn : Nat → Except Err α) (dates : Nat → String) (serialize : Err → String)
    (tries : Int) (delay : Nat) :
    (∀ m, (retry fn dates serialize tries delay).2.2 = Except.error m →
        m = retryMessage serialize (retry fn dates serialize tries delay).2.1)
    ∧ (∀ j, j < (retry fn dates serialize tries delay).2.1.length →
        ∃ e, fn j = Except.error e ∧
          (retry fn dates serialize tries delay).2.1[j]? = some ⟨dates j, e⟩) := by
  have hrec := retryLoop_records fn dates delay tries.toNat []
    (fun j hj => absurd hj (by simp))
  cases hres : (retryLoop fn dates delay [] tries.toNat).2.2 with
  | some a =>
    have h := retry_eq_ok fn dates serialize tries delay a hres
    constructor
    · intro m hm
      rw [h] at hm
      cases hm
    · intro j hj
      rw [h] at hj ⊢
      exact hrec j hj
  | none =>
    have h := retry_eq_err fn dates serialize tries delay hres
    constructor
    · intro m hm
      rw [h] at hm ⊢
      cases hm
      rfl
    · intro j hj
      rw [h] at hj ⊢
      exact hrec j hj

/-- Witness for C6 on a run with one failure then a success. -/
theorem retry_failures_captured_witness :
    (∀ m, (retry (fun i => if i = 0 then Except.error "boom" else Except.ok 5)
        (fun i => "T" ++ toString i) (fun e => e) (3 : Int) 7).2.2 = Except.error m →
        m = retryMessage (fun e => e)
          (retry (fun i => if i = 0 then Except.error "boom" else Except.ok 5)
            (fun i => "T" ++ toString i) (fun e => e) (3 : Int) 7).2.1)
    ∧ (∀ j, j < (retry (fun i => if i = 0 then Except.error "boom" else Except.ok 5)
        (fun i => "T" ++ toString i) (fun e => e) (3 : Int) 7).2.1.length →
        ∃ e, (fun i => if i = 0 then Except.error "boom" else Except.ok 5) j = Except.error e ∧
          (retry (fun i => if i = 0 then Except.error "boom" else Except.ok 5)
            (fun i => "T" ++ toString i) (fun e => e) (3 : Int) 7).2.1[j]?
            = some ⟨"T" ++ toString j, e⟩) :=
  retry_failures_captured (fun i => if i = 0 then Except.error "boom" else Except.ok 5)
    (fun i => "T" ++ toString i) (fun e => e) (3 : Int) 7

/-- **C10.** For every `tries ≤ 0`, `retry` never invokes the operation and
never invokes the sleeper: the trace and the record list are empty and it
fails immediately with the aggregated message over an empty history. -/
theorem retry_nonpositive_tries {Err : Type u} {α : Type v}
    (fn : Nat → Except Err α) (dates : Nat → String) (serialize : Err → String)
    (tries : Int) (htries : tries ≤ 0) (delay : Nat) :
    retry fn dates serialize tries delay = ([], [], Except.error "retry failed: ") := by
  have h0 : tries.toNat = 0 := Int.toNat_of_nonpos htries
  have hloop : retryLoop fn dates delay [] tries.toNat = ([], [], none) := by
    rw [h0]
    rfl
  rw [retry_eq_err fn dates serialize tries delay (by rw [hloop])]
  rw [hloop]
  have : retryMessage serialize ([] : List (AttemptRecord Err)) = "retry failed: " := by
    simp only [retryMessage, formatLines, String.intercalate]
    decide
  rw [this]

/-- Witness for C10 at `tries = -1`. -/
theorem retry_nonpositive_tries_witness :
    retry (fun _ => (Except.error "boom" : Except String Nat))
        (fun i => "T" ++ toString i) (fun e => e) (-1 : Int) 7
      = ([], [], Except.error "retry failed: ") :=
  retry_nonpositive_tries (fun _ => Except.error "boom")
    (fun i => "T" ++ toString i) (fun e => e) (-1 : Int) (by decide) 7

/-! ### Claim theorems: the HTTP probes -/

/-- **C7.** The HTTP probes (GET and POST) delegate to `retry` with the
default budget of 30 tries and 10000 ms delay; an attempt whose rejection
carries a (truthy) response status is re-signalled as the fresh error
`saw http status code <status>`, a transport-level rejection without a
response status passes through as-is; and a transport answering 503 then
200 makes the probe return the 200 result with the one failed attempt
recorded internally only, not surfaced. -/
theorem http_probes_delegate_to_retry {β : Type v} {ε : Type u}
    (request : Nat → Except (AxiosError ε) β)
    (dates : Nat → String) (serialize : JsError ε → String) :
    probeHttpGet request dates serialize
        = retry (httpAttempt request) dates serialize 30 10000
    ∧ probeHttpPost request dates serialize
        = retry (httpAttempt request) dates serialize 30 10000
    ∧ (∀ i err s, request i = Except.error err → err.responseStatus = some s → s ≠ 0 →
        httpAttempt request i
          = Except.error (JsError.errorMsg ("saw http status code " ++ toString s)))
    ∧ (∀ i err, request i = Except.error err → err.responseStatus = none →
        httpAttempt request i = Except.error (JsError.original err))
    ∧ (∀ (r : β) (e : ε),
        probeHttpGet (scenario503then200 r e) dates serialize
          = ([Event.invoke 0, Event.sleep 10000, Event.invoke 1],
             [⟨dates 0, JsError.errorMsg "saw http status code 503"⟩],
             Except.ok r)) := by
  refine ⟨rfl, rfl, ?_, ?_, ?_⟩
  · intro i err s h1 h2 h3
    simp [httpAttempt, h1, h2, h3]
  · intro i err h1 h2
    simp [httpAttempt, h1, h2]
  · intro r e
    rfl

/-- Witness for C7 with a transport over `Nat` responses. -/
theorem http_probes_delegate_to_retry_witness :
    probeHttpGet (scenario503then200 (200 : Nat) "conn-reset")
        (fun i => "T" ++ toString i) (fun _ => "E")
        = retry (httpAttempt (scenario503then200 (200 : Nat) "conn-reset"))
            (fun i => "T" ++ toString i) (fun _ => "E") 30 10000
    ∧ httpAttempt (scenario503then200 (200 : Nat) "conn-reset") 0
        = Except.error (JsError.errorMsg ("saw http status code " ++ toString 503))
    ∧ probeHttpGet (scenario503then200 (200 : Nat) "conn-reset")
        (fun i => "T" ++ toString i) (fun _ => "E")
        = ([Event.invoke 0, Event.sleep 10000, Event.invoke 1],
           [⟨"T" ++ toString 0, JsError.errorMsg "saw http status code 503"⟩],
           Except.ok 200) := by
  have h := http_probes_delegate_to_retry (scenario503then200 (200 : Nat) "conn-reset")
    (fun i => "T" ++ toString i) (fun _ => "E")
  exact ⟨h.1, h.2.2.1 0 ⟨some 503, "conn-reset"⟩ 503 rfl rfl (by decide),
    h.2.2.2.2 200 "conn-reset"⟩

/-! ### Claim theorems: the bounded waiter -/

/-- **C3** (code bug at line 238): when both waits succeed, `awaitStack`
returns a string whose two lines both name the `stackCreateComplete` wait;
the `stackExists` stage is never mentioned, so the returned value is not a
record of both wait stages. -/
theorem awaitStack_success_output_evaluated :
    ∃ out, (awaitStack (ε := Unit) "s" (fun _ => Except.ok ()) 0 (fun _ => Except.ok ())).2
        = Except.ok out
      ∧ out = "AWS.CloudFormation().waitFor(stackCreateComplete, s)\n"
          ++ "AWS.CloudFormation().waitFor(stackCreateComplete, s)\n"
      ∧ containsChars out.data "stackExists".data = false
      ∧ containsChars out.data "stackCreateComplete".data = true := by
  refine ⟨_, rfl, rfl, by decide, by decide⟩

/-- **C4** counterexample: when the existence wait consumes 44600 ms of
wall clock, the code passes the ready phase an attempt cap of 59, while the
exact ceiling of the remaining budget over 45 s that the claim states is
`ceil(2655400 ms / 45000 ms) = 60`. -/
theorem awaitStack_ready_cap_counterexample :
    readyCalls (awaitStack (ε := Unit) "s" (fun _ => Except.ok ()) 44600
        (fun _ => Except.ok ())).1
      = [⟨"s", 45, 59⟩]
    ∧ claimedReadyCap 44600 = 60
    ∧ (59 : Nat) ≠ 60 := by
  refine ⟨by decide, by decide, by decide⟩

/-- **C4** as amended: the existence phase gets delay 45 s and attempt cap
`ceil(45 min / 45 s) = 60`; the ready phase gets delay 45 s and attempt cap
`ceil(r / 45)` where `r` is the remaining budget in milliseconds rounded
half-up to the nearest whole second and floored at 45 s — so the cap is
always at least 1. -/
theorem awaitStack_wait_caps {ε : Type u} (stackName : String)
    (existsWait : WaiterParams → Except ε Unit) (d : Nat)
    (readyWait : WaiterParams → Except ε Unit) :
    existsCalls (awaitStack stackName existsWait d readyWait).1
        = [⟨stackName, 45, 60⟩]
    ∧ ceilDiv (MAX_WAIT_TIME_IN_MILLIS / 1000) WAIT_IN_SECONDS = 60
    ∧ (∀ p, p ∈ readyCalls (awaitStack stackName existsWait d readyWait).1 →
        p = ⟨stackName, 45, ceilDiv (maxWaitTimeInSeconds d) 45⟩
          ∧ 45 ≤ maxWaitTimeInSeconds d
          ∧ 1 ≤ ceilDiv (maxWaitTimeInSeconds d) 45) := by
  have hcap : ceilDiv (MAX_WAIT_TIME_IN_MILLIS / 1000) WAIT_IN_SECONDS = 60 := by decide
  have hW : WAIT_IN_SECONDS = 45 := rfl
  have hfloor : 45 ≤ maxWaitTimeInSeconds d := by
    have hmax := le_max_left (WAIT_IN_SECONDS : Int)
      (jsRoundDiv ((MAX_WAIT_TIME_IN_MILLIS : Int) - (d : Int)) 1000)
    unfold maxWaitTimeInSeconds
    unfold WAIT_IN_SECONDS at hmax ⊢
    omega
  have hone : 1 ≤ ceilDiv (maxWaitTimeInSeconds d) 45 := by
    unfold ceilDiv
    omega
  unfold awaitStack
  rw [hcap, hW]
  cases existsWait ⟨stackName, 45, 60⟩ with
  | error e =>
    refine ⟨rfl, hcap, ?_⟩
    intro p hp
    simp [readyCalls] at hp
  | ok u =>
    cases readyWait ⟨stackName, 45, ceilDiv (maxWaitTimeInSeconds d) 45⟩ with
    | error e =>
      refine ⟨rfl, hcap, ?_⟩
      intro p hp
      simp [readyCalls] at hp
      exact ⟨hp, hfloor, hone⟩
    | ok u2 =>
      refine ⟨rfl, hcap, ?_⟩
      intro p hp
      simp [readyCalls] at hp
      exact ⟨hp, hfloor, hone⟩

/-- Witness for C4 (amended) at duration 44600 ms with succeeding waits. -/
theorem awaitStack_wait_caps_witness :
    existsCalls (awaitStack (ε := Unit) "s" (fun _ => Except.ok ()) 44600
        (fun _ => Except.ok ())).1
        = [⟨"s", 45, 60⟩]
    ∧ ceilDiv (MAX_WAIT_TIME_IN_MILLIS / 1000) WAIT_IN_SECONDS = 60
    ∧ (∀ p, p ∈ readyCalls (awaitStack (ε := Unit) "s" (fun _ => Except.ok ()) 44600
        (fun _ => Except.ok ())).1 →
        p = ⟨"s", 45, ceilDiv (maxWaitTimeInSeconds 44600) 45⟩
          ∧ 45 ≤ maxWaitTimeInSeconds 44600
          ∧ 1 ≤ ceilDiv (maxWaitTimeInSeconds 44600) 45) :=
  awaitStack_wait_caps "s" (fun _ => Except.ok ()) 44600 (fun _ => Except.ok ())

/-- **C8.** The ready wait runs only after the existence wait confirmed
existence: if the existence wait rejects, `awaitStack` rejects with that
very error having made only the one `stackExists` call; and whenever a
`stackCreateComplete` call appears in the trace, the existence wait
returned success and the trace starts with the `stackExists` call. -/
theorem awaitStack_ready_only_after_existence {ε : Type u} (stackName : String)
    (existsWait : WaiterParams → Except ε Unit) (d : Nat)
    (readyWait : WaiterParams → Except ε Unit) :
    (∀ e, existsWait ⟨stackName, 45, 60⟩ = Except.error e →
        awaitStack stackName existsWait d readyWait
          = ([WaitCall.stackExists ⟨stackName, 45, 60⟩], Except.error e))
    ∧ (∀ p, WaitCall.stackCreateComplete p ∈ (awaitStack stackName existsWait d readyWait).1 →
        existsWait ⟨stackName, 45, 60⟩ = Except.ok ()
        ∧ (awaitStack stackName existsWait d readyWait).1.head?
            = some (WaitCall.stackExists ⟨stackName, 45, 60⟩)) := by
  have hcap : ceilDiv (MAX_WAIT_TIME_IN_MILLIS / 1000) WAIT_IN_SECONDS = 60 := by decide
  have hW : WAIT_IN_SECONDS = 45 := rfl
  unfold awaitStack
  rw [hcap, hW]
  cases hex : existsWait ⟨stackName, 45, 60⟩ with
  | error e =>
    refine ⟨fun e2 he2 => ?_, fun p hp => ?_⟩
    · injection he2 with h
      subst h
      rfl
    · simp at hp
  | ok u =>
    cases u
    refine ⟨(fun e2 he2 => nomatch he2), fun p hp => ?_⟩
    cases readyWait ⟨stackName, 45, ceilDiv (maxWaitTimeInSeconds d) 45⟩ with
    | error e => exact ⟨rfl, rfl⟩
    | ok u2 => exact ⟨rfl, rfl⟩

/-- Witness for C8 with an existence wait that times out. -/
theorem awaitStack_ready_only_after_existence_witness :
    awaitStack "s" (fun _ => (Except.error "WaitTimeout" : Except String Unit)) 0
        (fun _ => Except.ok ())
      = ([WaitCall.stackExists ⟨"s", 45, 60⟩], Except.error "WaitTimeout") :=
  (awaitStack_ready_only_after_existence "s"
    (fun _ => (Except.error "WaitTimeout" : Except String Unit)) 0
    (fun _ => Except.ok ())).1 "WaitTimeout" rfl

/-! ### Claim theorems: the stack-output lookup -/

theorem outputsObject_eq_find (l : List StackOutput) (k : String) :
    outputsObject l k
      = (l.reverse.find? (fun o => o.OutputKey == k)).map (fun o => o.OutputValue) := by
  induction l using List.reverseRecOn with
  | nil => rfl
  | append_singleton l o ih =>
    rw [outputsObject, List.foldl_append]
    simp only [List.foldl_cons, List.foldl_nil]
    rw [List.reverse_append]
    simp only [List.reverse_singleton, List.singleton_append, List.find?_cons]
    by_cases hk : k = o.OutputKey
    · simp [hk]
    · have hbeq : (o.OutputKey == k) = false := by
        simp [BEq.beq]
        exact fun h => hk h.symm
      simp only [hbeq, if_neg hk]
      exact ih

/-- **C9.** `getStackOutputs` fails with the `expected one stack, saw N`
error whenever the description returns zero or more than one stack; with
exactly one stack it returns the object mapping each output key to its
value (the value of the last output carrying that key, keys absent from the
outputs being unmapped). -/
theorem getStackOutputs_unique_stack (stackList : List Stack) :
    (stackList.length ≠ 1 →
        getStackOutputs stackList
          = Except.error ("expected one stack, saw " ++ toString stackList.length))
    ∧ (∀ s, stackList = [s] →
        getStackOutputs stackList = Except.ok (outputsObject s.Outputs)
        ∧ ∀ k, outputsObject s.Outputs k
            = (s.Outputs.reverse.find? (fun o => o.OutputKey == k)).map
                (fun o => o.OutputValue)) := by
  constructor
  · intro h
    match stackList with
    | [] => rfl
    | [s] => exact absurd rfl h
    | a :: b :: t => rfl
  · intro s hs
    subst hs
    exact ⟨rfl, fun k => outputsObject_eq_find s.Outputs k⟩

/-- Witness for C9: one stack with a duplicate output key. -/
theorem getStackOutputs_unique_stack_witness :
    getStackOutputs [⟨[⟨"A", "1"⟩, ⟨"A", "2"⟩]⟩]
        = Except.ok (outputsObject [⟨"A", "1"⟩, ⟨"A", "2"⟩])
    ∧ outputsObject [⟨"A", "1"⟩, ⟨"A", "2"⟩] "A" = some "2"
    ∧ getStackOutputs ([] : List Stack) = Except.error ("expected one stack, saw " ++ toString (0 : Nat)) := by
  have h := (getStackOutputs_unique_stack [⟨[⟨"A", "1"⟩, ⟨"A", "2"⟩]⟩]).2
    ⟨[⟨"A", "1"⟩, ⟨"A", "2"⟩]⟩ rfl
  have h0 := (getStackOutputs_unique_stack ([] : List Stack)).1 (by decide)
  exact ⟨h.1, by rw [h.2 "A"]; rfl, by simpa using h0⟩

end CfnTest
